import Mathlib

/-!
# MiniSoccer membership/broadcast core — shallow embedding

This file embeds the TypeScript sources of the MiniSoccer Discord member
dashboard (`src/shared/schema.ts` (`MemStorage`), `src/server/discord-bot.ts`
(`DiscordBotService`), and the Express route layer) into Lean 4 and proves
the spec claims C1–C10 about them.

Modelling conventions:
* JavaScript `Date` values are milliseconds since the epoch, as `Int`.
  The source computes "one day ago" via `dayAgo.setDate(dayAgo.getDate() - 1)`;
  we model that as `now - dayMs` with `dayMs = 86400000`.
* A JavaScript `Map` is an insertion-ordered association list
  `List (String × α)`; `Map.set` replaces in place, `Map.delete` removes.
* JavaScript `x || d` treats `""`, `0`, `null`/`undefined` as falsy; the
  `jsOr*` helpers reproduce that.
* Fallible external calls (Discord API, WebSocket sends) are driven by
  explicit environment flags; a thrown exception is modelled by the
  control flow the surrounding `try`/`catch` gives it in the source.
-/

namespace MiniSoccer

/-- One JS day in milliseconds (models `setDate(getDate() - 1)`). -/
def dayMs : Int := 86400000

/-- JS `v || d` for an optional string (`""` is falsy). -/
def jsOrStr (v : Option String) (d : String) : String :=
  match v with
  | some s => if s = "" then d else s
  | none => d

/-- JS `v || null` for an optional string (`""` becomes `null`). -/
def jsOrStrNull (v : Option String) : Option String :=
  match v with
  | some s => if s = "" then none else some s
  | none => none

/-- JS `v || d` for an optional number (`0` is falsy). -/
def jsOrInt (v : Option Int) (d : Int) : Int :=
  match v with
  | some n => if n = 0 then d else n
  | none => d

/-! ## JS `Map` as an insertion-ordered association list -/

/-- The `Map.get`: first (unique) entry with the given key. -/
def mapGet (m : List (String × α)) (k : String) : Option α :=
  (m.find? (fun p => p.1 = k)).map Prod.snd

/-- Whether the map has an entry for `k` (`Map.has`). -/
def mapHas (m : List (String × α)) (k : String) : Bool :=
  m.any (fun p => p.1 = k)

/-- The `Map.set`: replace in place if the key exists, else append. -/
def mapSet (m : List (String × α)) (k : String) (v : α) : List (String × α) :=
  if mapHas m k then m.map (fun p => if p.1 = k then (k, v) else p)
  else m ++ [(k, v)]

/-- The `Map.delete`: remove the entry for `k` (no-op when absent). -/
def mapDel (m : List (String × α)) (k : String) : List (String × α) :=
  m.filter (fun p => p.1 ≠ k)

/-! ## Data model (`src/shared/schema.ts`) -/

/-- A row of `discord_members` (`DiscordMember` in `schema.ts`). -/
structure DiscordMember where
  id : String
  username : String
  displayName : String
  discriminator : Option String
  avatar : Option String
  status : String
  role : String
  roles : List String
  cash : Int
  joinedServerAt : Option Int
  joinedDiscordAt : Option Int
  joinedAt : Option Int
  lastSeen : Option Int
  deriving Repr, DecidableEq

/-- A row of `kick_logs` (`KickLog` in `schema.ts`). -/
structure KickLog where
  id : String
  memberId : String
  kickedBy : String
  reason : Option String
  kickedAt : Option Int
  deriving Repr, DecidableEq

/-- The singleton `server_stats` row (`ServerStats` in `schema.ts`). -/
structure ServerStats where
  id : String
  totalMembers : Nat
  onlineMembers : Nat
  activeToday : Nat
  recentKicks : Nat
  lastUpdated : Int
  deriving Repr, DecidableEq

/-- A row of `blocked_words` (`BlockedWord` in `schema.ts`). -/
structure BlockedWord where
  id : String
  word : String
  createdAt : Option Int
  createdBy : String
  deriving Repr, DecidableEq

/-- The `InsertMember`: the argument of `createMember` (fields the schema
does not auto-fill may be absent). -/
structure InsertMember where
  id : String
  username : String
  displayName : String
  discriminator : Option String := none
  avatar : Option String := none
  status : Option String := none
  role : Option String := none
  roles : Option (List String) := none
  cash : Option Int := none
  joinedServerAt : Option Int := none
  joinedDiscordAt : Option Int := none
  deriving Repr, DecidableEq

/-- The `InsertKickLog`: the argument of `createKickLog`. -/
structure InsertKickLog where
  memberId : String
  kickedBy : String
  reason : Option String := none
  deriving Repr, DecidableEq

/-- The in-memory storage backend (`MemStorage` in `schema.ts`). -/
structure MemStorage where
  members : List (String × DiscordMember)
  kickLogs : List (String × KickLog)
  blockedWords : List (String × BlockedWord)
  stats : ServerStats
  deriving Repr, DecidableEq

/-- The `MemStorage` constructor: empty maps, all-zero stats. -/
def MemStorage.init (now : Int) : MemStorage :=
  { members := []
    kickLogs := []
    blockedWords := []
    stats := { id := "main", totalMembers := 0, onlineMembers := 0,
               activeToday := 0, recentKicks := 0, lastUpdated := now } }

/-- The JS truthiness check `m.lastSeen && m.lastSeen > dayAgo` used by
`updateMemberCount` (strict greater-than, 24h window). -/
def seenAfter (dayAgo : Int) (m : DiscordMember) : Bool :=
  match m.lastSeen with
  | some t => t > dayAgo
  | none => false

/-- The `MemStorage.updateMemberCount`: recompute `totalMembers`,
`onlineMembers` and `activeToday` from the member map.  It touches no
other stats field (in particular neither `recentKicks` nor `lastUpdated`). -/
def updateMemberCount (now : Int) (st : MemStorage) : MemStorage :=
  let members := st.members.map Prod.snd
  let dayAgo := now - dayMs
  { st with stats := { st.stats with
      totalMembers := members.length
      onlineMembers := (members.filter (fun m => m.status = "online")).length
      activeToday := (members.filter (seenAfter dayAgo)).length } }

/-- The member record built inside `MemStorage.createMember` (it depends
only on the insert payload and the current time, not on the store). -/
def mkMemberRecord (now : Int) (ins : InsertMember) : DiscordMember :=
  { id := ins.id
    username := ins.username
    displayName := ins.displayName
    discriminator := jsOrStrNull ins.discriminator
    avatar := jsOrStrNull ins.avatar
    role := jsOrStr ins.role "Member"
    status := jsOrStr ins.status "offline"
    roles := ins.roles.getD []
    cash := jsOrInt ins.cash 0
    joinedServerAt := some (ins.joinedServerAt.getD now)
    joinedDiscordAt := ins.joinedDiscordAt
    joinedAt := some now
    lastSeen := some now }

/-- The `MemStorage.createMember`: build the record, `Map.set` it, then
recompute the member counts. -/
def createMember (now : Int) (ins : InsertMember) (st : MemStorage) :
    DiscordMember × MemStorage :=
  let member := mkMemberRecord now ins
  let st' := { st with members := mapSet st.members ins.id member }
  (member, updateMemberCount now st')

/-- The `Partial<DiscordMember>` argument of `updateMember` (only the
fields the repository actually passes). -/
structure MemberUpdates where
  status : Option String := none
  roles : Option (List String) := none
  deriving Repr, DecidableEq

/-- Apply a `Partial<DiscordMember>` spread `{ ...member, ...updates }`. -/
def applyUpdates (m : DiscordMember) (u : MemberUpdates) : DiscordMember :=
  { m with
    status := u.status.getD m.status
    roles := u.roles.getD m.roles }

/-- The `MemStorage.updateMember`: merge the partial update, always refresh
`lastSeen`, then recompute member counts; `none` when the id is absent. -/
def updateMember (now : Int) (id : String) (u : MemberUpdates)
    (st : MemStorage) : Option DiscordMember × MemStorage :=
  match mapGet st.members id with
  | none => (none, st)
  | some member =>
    let updated := { applyUpdates member u with lastSeen := some now }
    let st' := { st with members := mapSet st.members id updated }
    (some updated, updateMemberCount now st')

/-- The `MemStorage.deleteMember`: `Map.delete`; recompute member counts only
when something was actually deleted. -/
def deleteMember (now : Int) (id : String) (st : MemStorage) :
    Bool × MemStorage :=
  if mapHas st.members id then
    (true, updateMemberCount now { st with members := mapDel st.members id })
  else
    (false, st)

/-- The `MemStorage.updateMemberCash` (the `setBalance` operation): overwrite
`cash` with the given amount and refresh `lastSeen`.  Note: it does NOT
call `updateMemberCount`. -/
def updateMemberCash (now : Int) (id : String) (amount : Int)
    (st : MemStorage) : Option DiscordMember × MemStorage :=
  match mapGet st.members id with
  | none => (none, st)
  | some member =>
    let updated := { member with cash := amount, lastSeen := some now }
    (some updated, { st with members := mapSet st.members id updated })

/-- The `MemStorage.addMemberCash` (the `addBalance` operation): add the
signed delta to `cash` and refresh `lastSeen`.  No `updateMemberCount`. -/
def addMemberCash (now : Int) (id : String) (amount : Int)
    (st : MemStorage) : Option DiscordMember × MemStorage :=
  match mapGet st.members id with
  | none => (none, st)
  | some member =>
    let updated := { member with cash := member.cash + amount, lastSeen := some now }
    (some updated, { st with members := mapSet st.members id updated })

/-- The `MemStorage.addMemberRole` (the `addTag` operation): push the role id
unless already present, refresh `lastSeen`.  No `updateMemberCount`. -/
def addMemberRole (now : Int) (id roleId : String)
    (st : MemStorage) : Option DiscordMember × MemStorage :=
  match mapGet st.members id with
  | none => (none, st)
  | some member =>
    let roles := if member.roles.contains roleId then member.roles
                 else member.roles ++ [roleId]
    let updated := { member with roles := roles, lastSeen := some now }
    (some updated, { st with members := mapSet st.members id updated })

/-- The `MemStorage.removeMemberRole` (the `removeTag` operation): filter the
role id out, refresh `lastSeen`.  No `updateMemberCount`. -/
def removeMemberRole (now : Int) (id roleId : String)
    (st : MemStorage) : Option DiscordMember × MemStorage :=
  match mapGet st.members id with
  | none => (none, st)
  | some member =>
    let updated := { member with
      roles := member.roles.filter (fun r => r ≠ roleId)
      lastSeen := some now }
    (some updated, { st with members := mapSet st.members id updated })

/-- The `MemStorage.createKickLog`: insert the log row (fresh uuid supplied by
the caller), then recompute `recentKicks` over the 24h window. -/
def createKickLog (now : Int) (uuid : String) (ins : InsertKickLog)
    (st : MemStorage) : KickLog × MemStorage :=
  let log : KickLog := { id := uuid, memberId := ins.memberId,
                         kickedBy := ins.kickedBy,
                         reason := jsOrStrNull ins.reason,
                         kickedAt := some now }
  let kickLogs := mapSet st.kickLogs uuid log
  let recent := ((kickLogs.map Prod.snd).filter (fun l =>
      match l.kickedAt with
      | some t => t > now - dayMs
      | none => false)).length
  (log, { st with
          kickLogs := kickLogs
          stats := { st.stats with recentKicks := recent } })

/-! ## `DiscordBotService` (`src/server/discord-bot.ts`) -/

/-- The `mapPresenceStatus`: the fixed vendor-status table; `none` models a
missing `member.presence?.status` and falls into the `default` arm. -/
def mapPresenceStatus : Option String → String
  | some "online" => "online"
  | some "idle" => "idle"
  | some "dnd" => "dnd"
  | _ => "offline"

/-- The permission facts `getMemberRole` inspects on a guild member. -/
structure MemberPerms where
  administrator : Bool
  kickMembers : Bool
  deriving Repr, DecidableEq

/-- The `getMemberRole`: highest privilege wins. -/
def getMemberRole (p : MemberPerms) : String :=
  if p.administrator then "Admin"
  else if p.kickMembers then "Moderator"
  else "Member"

/-- An upstream guild member as `syncMembers` reads it from the vendor
collection (`guild.members.fetch()`). -/
structure UpstreamMember where
  id : String
  username : String
  displayName : String
  discriminator : Option String
  avatar : Option String
  isBot : Bool
  presenceStatus : Option String
  perms : MemberPerms
  roleIds : List String
  joinedAt : Option Int
  userCreatedAt : Int
  deriving Repr, DecidableEq

/-- The `discordMember` object `syncMembers` builds for one upstream
member (the `@everyone` role id is filtered out of the tag list). -/
def syncInsert (everyoneId : String) (m : UpstreamMember) : InsertMember :=
  { id := m.id
    username := m.username
    displayName := jsOrStr (some m.displayName) m.username
    discriminator := m.discriminator
    avatar := m.avatar
    status := some (mapPresenceStatus m.presenceStatus)
    role := some (getMemberRole m.perms)
    roles := some (m.roleIds.filter (fun rid => rid ≠ everyoneId))
    joinedServerAt := m.joinedAt
    joinedDiscordAt := some m.userCreatedAt }

/-- The `syncMembers`: iterate the fetched collection, skip bots, and
`createMember` (upsert) every remaining member. -/
def syncMembers (now : Int) (everyoneId : String)
    (upstream : List UpstreamMember) (st : MemStorage) : MemStorage :=
  match upstream with
  | [] => st
  | m :: rest =>
    if m.isBot then syncMembers now everyoneId rest st
    else syncMembers now everyoneId rest
      (createMember now (syncInsert everyoneId m) st).2

/-- An envelope published through `broadcastUpdate` by the moderation /
event paths (the `{type, data}` wire object, one constructor per type). -/
inductive Envelope where
  | memberKicked (id : String) (reason : Option String)
  | memberBanned (id : String) (reason : Option String)
  | messageFiltered (userId username content : String) (timestamp : Int)
  deriving Repr, DecidableEq

/-- Outcome flags for the external Discord calls a kick/ban performs.
`dmOk`/`inviteOk` are best-effort (their failures are swallowed by inner
`try`/`catch` blocks and influence nothing observable here); `enforceOk`
is the primary enforcement call (`member.kick` / `guild.bans.create`). -/
structure ModerationEnv where
  guildFound : Bool
  memberFetchOk : Bool
  dmOk : Bool := true
  inviteOk : Bool := true
  enforceOk : Bool
  deriving Repr, DecidableEq

/-- The `DiscordBotService.kickMember`: guild/member lookup, best-effort DM
(with optional invite), enforcement (`member.kick`), then on success log,
delete from storage and broadcast.  A throw anywhere inside the `try`
lands in the `catch` and returns `false`; since every store mutation sits
after the enforcement call, an enforcement failure leaves the store
untouched and publishes nothing.  `uuid` is the fresh id `createKickLog`
mints for the log row. -/
def kickMember (env : ModerationEnv) (now : Int) (uuid : String)
    (memberId kickedBy : String) (reason : Option String)
    (sendInvite : Bool) (st : MemStorage) :
    Bool × MemStorage × List Envelope :=
  if !env.guildFound then (false, st, [])
  else if !env.memberFetchOk then (false, st, [])
  else
    -- DM / invite attempts: inner try/catch, no observable effect
    if !env.enforceOk then (false, st, [])
    else
      let (_, st1) := createKickLog now uuid
        { memberId := memberId, kickedBy := kickedBy, reason := reason } st
      let (_, st2) := deleteMember now memberId st1
      (true, st2, [Envelope.memberKicked memberId reason])

/-- The `DiscordBotService.banMember`: same shape as `kickMember` except that
the success path performs NO `createKickLog` — it only deletes the member
from storage and broadcasts `memberBanned`. -/
def banMember (env : ModerationEnv) (now : Int)
    (memberId bannedBy : String) (reason : Option String)
    (sendInvite : Bool) (st : MemStorage) :
    Bool × MemStorage × List Envelope :=
  if !env.guildFound then (false, st, [])
  else if !env.memberFetchOk then (false, st, [])
  else
    if !env.enforceOk then (false, st, [])
    else
      let (_, st1) := deleteMember now memberId st
      (true, st1, [Envelope.memberBanned memberId reason])

/-! ### Message moderation filter -/

/-- JS `String.prototype.toLowerCase` (ASCII range, which is what the
blocked-word paths exercise). -/
def jsToLower (s : String) : String :=
  ⟨s.data.map Char.toLower⟩

/-- Whether `pat` occurs at the start of `l` (helper for `includes`). -/
def startsWithCL : List Char → List Char → Bool
  | [], _ => true
  | _ :: _, [] => false
  | a :: as, b :: bs => a = b && startsWithCL as bs

/-- JS `hay.includes(pat)`: `pat` occurs contiguously inside `hay`. -/
def containsCL (pat : List Char) : List Char → Bool
  | [] => startsWithCL pat []
  | l@(_ :: rest) => startsWithCL pat l || containsCL pat rest

/-- The match test of `handleMessageFilter`:
`blockedWords.some(bw => content.toLowerCase().includes(bw.word.toLowerCase()))`. -/
def containsBlockedWord (blockedWords : List BlockedWord) (content : String) : Bool :=
  let messageContent := jsToLower content
  blockedWords.any (fun bw => containsCL (jsToLower bw.word).data messageContent.data)

/-- Outcome flags for the external calls of `handleMessageFilter`. -/
structure FilterEnv where
  deleteOk : Bool
  channelSendOk : Bool
  deriving Repr, DecidableEq

/-- An inbound message as the `MessageCreate` handler sees it. -/
structure InboundMessage where
  authorId : String
  authorUsername : String
  authorIsBot : Bool
  content : String
  deriving Repr, DecidableEq

/-- The `DiscordBotService.handleMessageFilter`: read the blocked words, test
for a match; on match `await message.delete()` (NOT wrapped in its own
`try` — a throw here escapes to the outer `catch` and aborts the rest),
then a best-effort channel notice (inner `try`), then broadcast
`messageFiltered`.  Returns the envelopes published. -/
def handleMessageFilter (env : FilterEnv) (now : Int)
    (msg : InboundMessage) (st : MemStorage) : List Envelope :=
  let blockedWords := st.blockedWords.map Prod.snd
  if containsBlockedWord blockedWords msg.content then
    if !env.deleteOk then []  -- message.delete() threw → outer catch
    else
      -- channel notice: inner try/catch, failure swallowed
      [Envelope.messageFiltered msg.authorId msg.authorUsername msg.content now]
  else []

/-- The `MessageCreate` event handler: bot authors are ignored before the
filter runs. -/
def onMessageCreate (env : FilterEnv) (now : Int)
    (msg : InboundMessage) (st : MemStorage) : List Envelope :=
  if msg.authorIsBot then []
  else handleMessageFilter env now msg st

/-! ### WebSocket broadcast hub -/

/-- A registered WebSocket observer.  `readyState` uses the `ws`
constants (`WebSocket.OPEN = 1`); `sendRaises` says whether this
client's `send` throws when invoked. -/
structure WsClient where
  cid : Nat
  readyState : Nat
  sendRaises : Bool
  deriving Repr, DecidableEq

/-- The `WebSocket.OPEN` constant. -/
def wsOPEN : Nat := 1

/-- The `forEach` loop of `broadcastUpdate`: attempt `ws.send(message)`
for each client whose `readyState` is `OPEN`, in registration order.
Returns the `(cid, message)` deliveries made and whether a `send` threw;
a throw propagates out of `forEach`, so iteration stops there. -/
def deliverAll (clients : List WsClient) (message : String) :
    List (Nat × String) × Bool :=
  match clients with
  | [] => ([], false)
  | ws :: rest =>
    if ws.readyState = wsOPEN then
      if ws.sendRaises then ([], true)
      else
        let (ds, err) := deliverAll rest message
        ((ws.cid, message) :: ds, err)
    else deliverAll rest message

/-- The `DiscordBotService.broadcastUpdate`: serialize once, fan out over
`wsClients`.  The method never mutates the client set (the returned
registry is the input set unchanged); clients leave the set only through
the `close` handler installed by `addWebSocketClient`. -/
def broadcastUpdate (clients : List WsClient) (message : String) :
    List (Nat × String) × Bool × List WsClient :=
  let (ds, err) := deliverAll clients message
  (ds, err, clients)

/-- The `ws.on('close', ...)` handler installed by `addWebSocketClient`:
remove the closed client from the registry. -/
def onWsClose (clients : List WsClient) (cid : Nat) : List WsClient :=
  clients.filter (fun c => c.cid ≠ cid)

/-! ### Route layer (`PUT /api/members/:id/cash`, `src/unnamed/part_002`) -/

/-- HTTP outcome of the cash-set route. -/
inductive CashResponse where
  | badRequest
  | notFound
  | ok (m : DiscordMember)
  deriving Repr, DecidableEq

/-- The `PUT /api/members/:id/cash`: the body is validated against
`updateCashSchema = z.object({ amount: z.number().min(0) })` — a negative
amount fails validation and yields 400 before any storage call; an
accepted amount is passed to `storage.updateMemberCash`. -/
def putMemberCash (now : Int) (id : String) (amount : Int)
    (st : MemStorage) : CashResponse × MemStorage :=
  if amount < 0 then (CashResponse.badRequest, st)
  else
    match updateMemberCash now id amount st with
    | (some m, st') => (CashResponse.ok m, st')
    | (none, st') => (CashResponse.notFound, st')

/-! ### Operation sequences and sync reformulation helpers -/

/-- A create-or-delete store operation (each carries its own clock value,
since the event loop timestamps each mutation as it happens). -/
inductive StoreOp where
  | create (now : Int) (ins : InsertMember)
  | del (now : Int) (id : String)
  deriving Repr, DecidableEq

/-- Apply a single store operation. -/
def applyOp (st : MemStorage) : StoreOp → MemStorage
  | StoreOp.create now ins => (createMember now ins st).2
  | StoreOp.del now id => (deleteMember now id st).2

/-- Apply a sequence of store operations in order. -/
def applyOps (ops : List StoreOp) (st : MemStorage) : MemStorage :=
  ops.foldl applyOp st

/-- Fold a list of key/value writes over a map with `mapSet`. -/
def applySets (kvs : List (String × α)) (m : List (String × α)) :
    List (String × α) :=
  kvs.foldl (fun acc kv => mapSet acc kv.1 kv.2) m

/-- The key/member pairs a snapshot sync writes (bots skipped); the value
written for a member depends only on the upstream data and the clock. -/
def syncKV (now : Int) (everyoneId : String)
    (upstream : List UpstreamMember) : List (String × DiscordMember) :=
  (upstream.filter (fun m => !m.isBot)).map
    (fun m => (m.id, mkMemberRecord now (syncInsert everyoneId m)))

/-- The stats record `updateMemberCount` writes: the three member counts
recomputed from the given member map, all other fields taken from `s`. -/
def recomputedStats (now : Int) (members : List (String × DiscordMember))
    (s : ServerStats) : ServerStats :=
  { s with
    totalMembers := (members.map Prod.snd).length
    onlineMembers := ((members.map Prod.snd).filter
      (fun m => m.status = "online")).length
    activeToday := ((members.map Prod.snd).filter
      (seenAfter (now - dayMs))).length }

/-- One non-bot upstream member, for concrete sync runs. -/
def sampleUpstream : List UpstreamMember :=
  [{ id := "m1", username := "u1", displayName := "U1", discriminator := none,
     avatar := none, isBot := false, presenceStatus := some "online",
     perms := { administrator := false, kickMembers := false },
     roleIds := ["r1"], joinedAt := some 10, userCreatedAt := 20 }]

/-! ### Concrete sample data for witnesses and counterexamples -/

/-- A store holding one member `"m1"` created at time 0. -/
def sampleStore : MemStorage :=
  (createMember 0 { id := "m1", username := "u1", displayName := "U1" }
    (MemStorage.init 0)).2

/-- Moderation environment in which every external call succeeds. -/
def envAllOk : ModerationEnv :=
  { guildFound := true, memberFetchOk := true, enforceOk := true }

/-- Moderation environment in which only the enforcement call fails. -/
def envEnforceFails : ModerationEnv :=
  { guildFound := true, memberFetchOk := true, enforceOk := false }

/-- A store whose blocked-word table holds the single term `"ass"`. -/
def blockedStore : MemStorage :=
  { MemStorage.init 0 with
    blockedWords :=
      [("bw1", { id := "bw1", word := "ass", createdAt := some 0,
                 createdBy := "admin" })] }

/-- A non-bot inbound message whose content contains a blocked term. -/
def sampleMessage : InboundMessage :=
  { authorId := "u7", authorUsername := "alice", authorIsBot := false,
    content := "mass production" }

/-- A store reached at time `2·day` by: creating `"a"` at time 0, creating
`"b"` at `2·day` (recomputing `activeToday = 1`, since `"a"` is stale),
then `updateMemberCash "a"` at `2·day` (refreshing `"a"`'s `lastSeen`). -/
def desyncStore : MemStorage :=
  (updateMemberCash (2 * dayMs) "a" 5
    ((createMember (2 * dayMs) { id := "b", username := "ub", displayName := "B" }
      ((createMember 0 { id := "a", username := "ua", displayName := "A" }
        (MemStorage.init 0)).2)).2)).2

/-- A store whose stats claim one member while the member map is empty
(reachable e.g. through the exposed `updateStats` collaborator call). -/
def desyncTotal : MemStorage :=
  { MemStorage.init 0 with
    stats := { (MemStorage.init 0).stats with totalMembers := 1 } }

/-- A registered observer whose `send` throws. -/
def wsRaising : WsClient := { cid := 1, readyState := wsOPEN, sendRaises := true }

/-- A healthy registered observer. -/
def wsHealthy : WsClient := { cid := 2, readyState := wsOPEN, sendRaises := false }

/-- A blocked-term set containing only `"ass"`. -/
def assOnly : List BlockedWord :=
  [{ id := "bw1", word := "ass", createdAt := some 0, createdBy := "admin" }]

end MiniSoccer

namespace MiniSoccer

/-! ## Theorems -/

/-- The `deleteMember` never touches the kick-log table. -/
theorem deleteMember_kickLogs (now : Int) (id : String) (st : MemStorage) :
    ((deleteMember now id st).2).kickLogs = st.kickLogs := by
  unfold deleteMember
  split <;> rfl

/-- C1: if the enforcement call of a kick or a ban fails, the operation
returns `false`, the store is byte-identical to its pre-call state (hence
no log entry is written and no member record is deleted), and nothing is
broadcast. -/
theorem enforcement_failure_atomic (env : ModerationEnv) (now : Int)
    (uuid memberId actor : String) (reason : Option String)
    (sendInvite : Bool) (st : MemStorage) (h : env.enforceOk = false) :
    kickMember env now uuid memberId actor reason sendInvite st = (false, st, []) ∧
    banMember env now memberId actor reason sendInvite st = (false, st, []) := by
  cases hg : env.guildFound <;> cases hm : env.memberFetchOk <;>
    simp [kickMember, banMember, hg, hm, h]

/-- Witness for C1: a concrete kick and ban whose enforcement fails leave
the sample store untouched. -/
theorem enforcement_failure_atomic_witness :
    kickMember envEnforceFails 7 "log1" "m1" "web-dashboard" (some "spam")
        false sampleStore = (false, sampleStore, []) ∧
    banMember envEnforceFails 7 "m1" "web-dashboard" (some "spam")
        false sampleStore = (false, sampleStore, []) :=
  enforcement_failure_atomic envEnforceFails 7 "log1" "m1" "web-dashboard"
    (some "spam") false sampleStore rfl

/-- Counterexample to C2: a ban whose enforcement succeeds returns `true`,
deletes the member and broadcasts, yet writes NO kick-log entry — the
log table of the result is still empty. -/
theorem ban_success_no_log_counterexample :
    (banMember envAllOk 5 "m1" "web-dashboard" (some "spam") false sampleStore).1
        = true ∧
    (banMember envAllOk 5 "m1" "web-dashboard" (some "spam") false sampleStore).2.1.kickLogs
        = [] ∧
    (banMember envAllOk 5 "m1" "web-dashboard" (some "spam") false sampleStore).2.2
        = [Envelope.memberBanned "m1" (some "spam")] :=
  ⟨rfl, rfl, rfl⟩

/-- C2 (amended): on enforcement success a kick writes the kick-log entry,
then deletes the member record, then broadcasts `memberKicked {id, reason}`;
a ban deletes the member record and broadcasts `memberBanned {id, reason}`
but writes no log entry (its kick-log table is unchanged). -/
theorem enforcement_success_steps (env : ModerationEnv) (now : Int)
    (uuid memberId actor : String) (reason : Option String)
    (sendInvite : Bool) (st : MemStorage)
    (hg : env.guildFound = true) (hm : env.memberFetchOk = true)
    (he : env.enforceOk = true) :
    kickMember env now uuid memberId actor reason sendInvite st =
      (true,
       (deleteMember now memberId
         (createKickLog now uuid
           { memberId := memberId, kickedBy := actor, reason := reason } st).2).2,
       [Envelope.memberKicked memberId reason]) ∧
    banMember env now memberId actor reason sendInvite st =
      (true, (deleteMember now memberId st).2,
       [Envelope.memberBanned memberId reason]) ∧
    (banMember env now memberId actor reason sendInvite st).2.1.kickLogs
        = st.kickLogs := by
  refine ⟨?_, ?_, ?_⟩ <;>
    simp [kickMember, banMember, hg, hm, he, deleteMember_kickLogs]

/-- Witness for C2 (amended): the concrete successful kick and ban of
`"m1"` follow exactly the stated step compositions. -/
theorem enforcement_success_steps_witness :
    kickMember envAllOk 5 "log1" "m1" "web-dashboard" (some "spam") false sampleStore =
      (true,
       (deleteMember 5 "m1"
         (createKickLog 5 "log1"
           { memberId := "m1", kickedBy := "web-dashboard", reason := some "spam" }
           sampleStore).2).2,
       [Envelope.memberKicked "m1" (some "spam")]) ∧
    banMember envAllOk 5 "m1" "web-dashboard" (some "spam") false sampleStore =
      (true, (deleteMember 5 "m1" sampleStore).2,
       [Envelope.memberBanned "m1" (some "spam")]) ∧
    (banMember envAllOk 5 "m1" "web-dashboard" (some "spam") false sampleStore).2.1.kickLogs
        = sampleStore.kickLogs :=
  enforcement_success_steps envAllOk 5 "log1" "m1" "web-dashboard" (some "spam")
    false sampleStore rfl rfl rfl

/-- Counterexample to C3: a non-bot message matching the blocked term
`"ass"` whose removal attempt fails produces NO `messageFiltered`
broadcast — the throw from `message.delete()` lands in the outer `catch`
before the broadcast line runs. -/
theorem filter_removal_failure_counterexample :
    containsBlockedWord (blockedStore.blockedWords.map Prod.snd)
        sampleMessage.content = true ∧
    onMessageCreate { deleteOk := false, channelSendOk := true } 5
        sampleMessage blockedStore = [] := by
  exact ⟨by decide, by decide⟩

/-- C3 (amended): for a matching non-bot message, the `messageFiltered`
envelope {userId, username, content, timestamp} is broadcast exactly when
the message-removal attempt succeeds — regardless of whether the
channel-notice attempt fails; a failed removal aborts the pipeline and
nothing is broadcast. -/
theorem filter_broadcast_iff_removal_succeeds (env : FilterEnv) (now : Int)
    (msg : InboundMessage) (st : MemStorage)
    (hbot : msg.authorIsBot = false)
    (hmatch : containsBlockedWord (st.blockedWords.map Prod.snd) msg.content = true) :
    onMessageCreate env now msg st =
      if env.deleteOk then
        [Envelope.messageFiltered msg.authorId msg.authorUsername msg.content now]
      else [] := by
  cases hd : env.deleteOk <;>
    simp [onMessageCreate, handleMessageFilter, hbot, hmatch, hd]

/-- Witness for C3 (amended): with removal succeeding but the channel
notice failing, the envelope is still broadcast. -/
theorem filter_broadcast_iff_removal_succeeds_witness :
    onMessageCreate { deleteOk := true, channelSendOk := false } 5
        sampleMessage blockedStore
      = [Envelope.messageFiltered "u7" "alice" "mass production" 5] := by
  have h := filter_broadcast_iff_removal_succeeds
    { deleteOk := true, channelSendOk := false } 5 sampleMessage blockedStore
    rfl (by decide)
  simpa using h

/-- The `updateMemberCount` is idempotent at a fixed clock value: it reads
only the member map, which it never changes. -/
theorem updateMemberCount_idem (now : Int) (st : MemStorage) :
    updateMemberCount now (updateMemberCount now st) = updateMemberCount now st :=
  rfl

/-- Counterexample to C6: after the completed `updateMemberCash` mutation
the stored stats still say `activeToday = 1`, while recomputing from the
store at the same instant gives `2` — the cash mutation returned without
triggering the recompute, leaving store and stats observably out of sync. -/
theorem cash_mutation_stats_desync_counterexample :
    desyncStore.stats.activeToday = 1 ∧
    (updateMemberCount (2 * dayMs) desyncStore).stats.activeToday = 2 ∧
    desyncStore.stats ≠ (updateMemberCount (2 * dayMs) desyncStore).stats := by
  refine ⟨by decide, by decide, by decide⟩

/-- C6 (amended): `createMember` always returns a store fixed under the
stats recompute, and so do `deleteMember` (when it deleted) and
`updateMember` (when the id existed); but `updateMemberCash`,
`addMemberCash`, `addMemberRole` and `removeMemberRole` return with the
stats record byte-identical to before — they skip the recompute, so the
store and the aggregate stats can be observed out of sync after them. -/
theorem stats_recompute_coverage (now : Int) (id roleId : String) (amt : Int)
    (u : MemberUpdates) (ins : InsertMember) (st : MemStorage) :
    ((updateMemberCash now id amt st).2.stats = st.stats) ∧
    ((addMemberCash now id amt st).2.stats = st.stats) ∧
    ((addMemberRole now id roleId st).2.stats = st.stats) ∧
    ((removeMemberRole now id roleId st).2.stats = st.stats) ∧
    ((createMember now ins st).2
        = updateMemberCount now (createMember now ins st).2) ∧
    ((deleteMember now id st).1 = true →
      (deleteMember now id st).2
        = updateMemberCount now (deleteMember now id st).2) ∧
    (∀ m, (updateMember now id u st).1 = some m →
      (updateMember now id u st).2
        = updateMemberCount now (updateMember now id u st).2) := by
  refine ⟨?_, ?_, ?_, ?_, ?_, ?_, ?_⟩
  · cases h : mapGet st.members id <;> simp [updateMemberCash, h]
  · cases h : mapGet st.members id <;> simp [addMemberCash, h]
  · cases h : mapGet st.members id <;> simp [addMemberRole, h]
  · cases h : mapGet st.members id <;> simp [removeMemberRole, h]
  · exact (updateMemberCount_idem now _).symm
  · intro hdel
    unfold deleteMember at hdel ⊢
    by_cases h : mapHas st.members id = true
    · simp only [h, if_true]
      exact (updateMemberCount_idem now _).symm
    · simp [h] at hdel
  · intro m hm
    unfold updateMember at hm ⊢
    cases h : mapGet st.members id with
    | none => simp [h] at hm
    | some mem =>
      simp only [h]
      exact (updateMemberCount_idem now _).symm

/-- Witness for C6 (amended), instantiated on the sample store: the cash
and role operations leave its stats unchanged, while create/delete/update
return recompute-fixed stores. -/
theorem stats_recompute_coverage_witness :
    ((updateMemberCash 3 "m1" 9 sampleStore).2.stats = sampleStore.stats) ∧
    ((addMemberCash 3 "m1" 9 sampleStore).2.stats = sampleStore.stats) ∧
    ((addMemberRole 3 "m1" "r1" sampleStore).2.stats = sampleStore.stats) ∧
    ((removeMemberRole 3 "m1" "r1" sampleStore).2.stats = sampleStore.stats) ∧
    ((createMember 3 { id := "m2", username := "u2", displayName := "U2" } sampleStore).2
        = updateMemberCount 3
            (createMember 3 { id := "m2", username := "u2", displayName := "U2" } sampleStore).2) ∧
    ((deleteMember 3 "m1" sampleStore).2
        = updateMemberCount 3 (deleteMember 3 "m1" sampleStore).2) :=
  ⟨(stats_recompute_coverage 3 "m1" "r1" 9 { status := some "online" }
      { id := "m2", username := "u2", displayName := "U2" } sampleStore).1,
   (stats_recompute_coverage 3 "m1" "r1" 9 { status := some "online" }
      { id := "m2", username := "u2", displayName := "U2" } sampleStore).2.1,
   (stats_recompute_coverage 3 "m1" "r1" 9 { status := some "online" }
      { id := "m2", username := "u2", displayName := "U2" } sampleStore).2.2.1,
   (stats_recompute_coverage 3 "m1" "r1" 9 { status := some "online" }
      { id := "m2", username := "u2", displayName := "U2" } sampleStore).2.2.2.1,
   (stats_recompute_coverage 3 "m1" "r1" 9 { status := some "online" }
      { id := "m2", username := "u2", displayName := "U2" } sampleStore).2.2.2.2.1,
   (stats_recompute_coverage 3 "m1" "r1" 9 { status := some "online" }
      { id := "m2", username := "u2", displayName := "U2" } sampleStore).2.2.2.2.2.1 rfl⟩

/-- Counterexample to C7: starting from a state whose `totalMembers` is
already wrong, a `deleteMember` on an absent id is a no-op that skips the
recompute, so after the sequence `totalMembers = 1` while the store holds
zero members. -/
theorem totalMembers_any_state_counterexample :
    (applyOps [StoreOp.del 0 "a"] desyncTotal).stats.totalMembers = 1 ∧
    (applyOps [StoreOp.del 0 "a"] desyncTotal).members.length = 0 := by
  refine ⟨by decide, by decide⟩

/-- C7 (amended): starting from any state in which `totalMembers` equals
the live member count (in particular the initial empty store), after any
sequence of `createMember`/`deleteMember` operations `totalMembers` still
equals the live member count. -/
theorem totalMembers_matches_count (ops : List StoreOp) (st : MemStorage)
    (h : st.stats.totalMembers = st.members.length) :
    (applyOps ops st).stats.totalMembers = (applyOps ops st).members.length := by
  induction ops generalizing st with
  | nil => exact h
  | cons op rest ih =>
    refine ih _ ?_
    cases op with
    | create now ins => simp [applyOp, createMember, updateMemberCount]
    | del now id =>
      by_cases hd : mapHas st.members id = true
      · simp [applyOp, deleteMember, hd, updateMemberCount]
      · simpa [applyOp, deleteMember, hd] using h

/-- Witness for C7 (amended): from the empty store, create `"x"`, create
`"y"`, delete `"x"`, delete a missing id — the count matches. -/
theorem totalMembers_matches_count_witness :
    (applyOps
      [StoreOp.create 0 { id := "x", username := "ux", displayName := "X" },
       StoreOp.create 1 { id := "y", username := "uy", displayName := "Y" },
       StoreOp.del 2 "x", StoreOp.del 3 "zzz"]
      (MemStorage.init 0)).stats.totalMembers =
    (applyOps
      [StoreOp.create 0 { id := "x", username := "ux", displayName := "X" },
       StoreOp.create 1 { id := "y", username := "uy", displayName := "Y" },
       StoreOp.del 2 "x", StoreOp.del 3 "zzz"]
      (MemStorage.init 0)).members.length :=
  totalMembers_matches_count
    [StoreOp.create 0 { id := "x", username := "ux", displayName := "X" },
     StoreOp.create 1 { id := "y", username := "uy", displayName := "Y" },
     StoreOp.del 2 "x", StoreOp.del 3 "zzz"]
    (MemStorage.init 0) rfl

/-- C8: the cash-set route rejects every negative amount with a 400
before touching storage, and every accepted (non-negative) amount applied
to an existing member overwrites that member's balance with exactly the
amount, whatever the prior balance was. -/
theorem setBalance_validation_and_override (now : Int) (id : String)
    (amount : Int) (st : MemStorage) :
    (amount < 0 → putMemberCash now id amount st = (CashResponse.badRequest, st)) ∧
    (0 ≤ amount → ∀ m, mapGet st.members id = some m →
      putMemberCash now id amount st =
        (CashResponse.ok { m with cash := amount, lastSeen := some now },
         { st with members := (
            mapSet st.members id { m with cash := amount, lastSeen := some now }) })) := by
  constructor
  · intro h
    simp [putMemberCash, h]
  · intro h m hm
    have hlt : ¬ amount < 0 := not_lt.mpr h
    simp [putMemberCash, hlt, updateMemberCash, hm]

/-- Witness for C8: `-1` is rejected on the sample store; `42` applied to
`"m1"` (whose prior balance is 0) sets the balance to exactly `42`. -/
theorem setBalance_validation_and_override_witness :
    putMemberCash 3 "m1" (-1) sampleStore = (CashResponse.badRequest, sampleStore) ∧
    putMemberCash 3 "m1" 42 sampleStore =
      (CashResponse.ok
        { mkMemberRecord 0 { id := "m1", username := "u1", displayName := "U1" } with
          cash := 42, lastSeen := some 3 },
       { sampleStore with members := (
          mapSet sampleStore.members "m1"
            { mkMemberRecord 0 { id := "m1", username := "u1", displayName := "U1" } with
              cash := 42, lastSeen := some 3 }) }) :=
  ⟨(setBalance_validation_and_override 3 "m1" (-1) sampleStore).1 (by decide),
   (setBalance_validation_and_override 3 "m1" 42 sampleStore).2 (by decide)
     (mkMemberRecord 0 { id := "m1", username := "u1", displayName := "U1" }) rfl⟩

/-- C10: on an existing member, each of the four incremental mutations
changes only its targeted field (cash or roles) plus `lastSeen`, sets
`lastSeen` to the current time, and thereby makes the member satisfy the
strict 24-hour `activeToday` window test at that time. -/
theorem incremental_ops_refresh_lastSeen (now : Int) (id roleId : String)
    (amt : Int) (st : MemStorage) (m : DiscordMember)
    (hm : mapGet st.members id = some m) :
    updateMemberCash now id amt st
      = (some { m with cash := amt, lastSeen := some now },
         { st with members := (
            mapSet st.members id { m with cash := amt, lastSeen := some now }) }) ∧
    addMemberCash now id amt st
      = (some { m with cash := m.cash + amt, lastSeen := some now },
         { st with members := (
            mapSet st.members id { m with cash := m.cash + amt, lastSeen := some now }) }) ∧
    addMemberRole now id roleId st
      = (some { m with
            roles := if m.roles.contains roleId then m.roles else m.roles ++ [roleId]
            lastSeen := some now },
         { st with members := (
            mapSet st.members id
              { m with
                roles := if m.roles.contains roleId then m.roles else m.roles ++ [roleId]
                lastSeen := some now }) }) ∧
    removeMemberRole now id roleId st
      = (some { m with
            roles := m.roles.filter (fun r => r ≠ roleId)
            lastSeen := some now },
         { st with members := (
            mapSet st.members id
              { m with
                roles := m.roles.filter (fun r => r ≠ roleId)
                lastSeen := some now }) }) ∧
    seenAfter (now - dayMs) { m with cash := amt, lastSeen := some now } = true ∧
    seenAfter (now - dayMs) { m with cash := m.cash + amt, lastSeen := some now } = true ∧
    seenAfter (now - dayMs)
      { m with
        roles := if m.roles.contains roleId then m.roles else m.roles ++ [roleId]
        lastSeen := some now } = true ∧
    seenAfter (now - dayMs)
      { m with
        roles := m.roles.filter (fun r => r ≠ roleId)
        lastSeen := some now } = true := by
  refine ⟨?_, ?_, ?_, ?_, ?_, ?_, ?_, ?_⟩
  · simp [updateMemberCash, hm]
  · simp [addMemberCash, hm]
  · simp [addMemberRole, hm]
  · simp [removeMemberRole, hm]
  all_goals
    simp only [seenAfter, gt_iff_lt, decide_eq_true_eq, dayMs]
    omega

/-- Witness for C10: the four incremental mutations on `"m1"` in the
sample store, at time 3. -/
theorem incremental_ops_refresh_lastSeen_witness :
    (updateMemberCash 3 "m1" 9 sampleStore).1
      = some { mkMemberRecord 0 { id := "m1", username := "u1", displayName := "U1" } with
               cash := 9, lastSeen := some 3 } ∧
    seenAfter (3 - dayMs)
      { mkMemberRecord 0 { id := "m1", username := "u1", displayName := "U1" } with
        cash := 9, lastSeen := some 3 } = true :=
  ⟨by rw [(incremental_ops_refresh_lastSeen 3 "m1" "r1" 9 sampleStore
      (mkMemberRecord 0 { id := "m1", username := "u1", displayName := "U1" }) rfl).1],
   (incremental_ops_refresh_lastSeen 3 "m1" "r1" 9 sampleStore
      (mkMemberRecord 0 { id := "m1", username := "u1", displayName := "U1" }) rfl).2.2.2.2.1⟩

/-- Counterexample to C4: with two open observers of which the first
raises on delivery, the publish delivers to NO observer (the raise aborts
the `forEach`, so the second, healthy observer receives nothing) and the
registry afterwards still contains the raising observer — it is not
removed by the publish path. -/
theorem broadcast_raising_observer_counterexample :
    broadcastUpdate [wsRaising, wsHealthy] "msg"
      = ([], true, [wsRaising, wsHealthy]) := by
  decide

/-- When no open observer raises, the `forEach` delivers the message to
exactly the open observers, in registration order, and reports no error. -/
theorem deliverAll_no_raising (message : String) :
    ∀ clients : List WsClient,
      (∀ c ∈ clients, c.readyState = wsOPEN → c.sendRaises = false) →
      deliverAll clients message =
        ((clients.filter (fun c => c.readyState == wsOPEN)).map
          (fun c => (c.cid, message)), false) := by
  intro clients
  induction clients with
  | nil => intro _; rfl
  | cons c rest ih =>
    intro h
    have hrest := ih (fun x hx hox => h x (List.mem_cons_of_mem c hx) hox)
    by_cases hc : c.readyState = wsOPEN
    · have hr : c.sendRaises = false := h c (List.mem_cons_self c rest) hc
      simp [deliverAll, hc, hr, hrest, List.filter_cons]
    · simp [deliverAll, hc, hrest, List.filter_cons]

/-- C4 (amended): a publish attempts delivery to exactly the registered
observers whose `readyState` is OPEN, in registration order; when none of
them raises, all of them receive the envelope and the registry is
returned unchanged.  An observer that raises during delivery aborts
delivery to every later observer and is NOT removed by the publish —
observers leave the registry only through their transport close event
(`onWsClose`). -/
theorem broadcast_fanout_no_raising (clients : List WsClient) (message : String)
    (h : ∀ c ∈ clients, c.readyState = wsOPEN → c.sendRaises = false) :
    broadcastUpdate clients message =
      ((clients.filter (fun c => c.readyState == wsOPEN)).map
        (fun c => (c.cid, message)), false, clients) := by
  unfold broadcastUpdate
  rw [deliverAll_no_raising message clients h]

/-- Witness for C4 (amended): two healthy observers and one closed one —
both open observers receive the publish in order, the closed one is
skipped, none is dropped from the registry. -/
theorem broadcast_fanout_no_raising_witness :
    broadcastUpdate
      [wsHealthy, { cid := 7, readyState := 3, sendRaises := false },
       { cid := 9, readyState := wsOPEN, sendRaises := false }] "hello"
      = ([(2, "hello"), (9, "hello")], false,
         [wsHealthy, { cid := 7, readyState := 3, sendRaises := false },
          { cid := 9, readyState := wsOPEN, sendRaises := false }]) := by
  have h := broadcast_fanout_no_raising
    [wsHealthy, { cid := 7, readyState := 3, sendRaises := false },
     { cid := 9, readyState := wsOPEN, sendRaises := false }] "hello"
    (by decide)
  simpa using h

/-- The `startsWithCL pat l` holds exactly when `pat` is an initial segment
of `l`. -/
theorem startsWithCL_iff (pat : List Char) :
    ∀ l : List Char, startsWithCL pat l = true ↔ ∃ t, pat ++ t = l := by
  induction pat with
  | nil =>
    intro l
    simp [startsWithCL]
  | cons a as ih =>
    intro l
    cases l with
    | nil => simp [startsWithCL]
    | cons b bs =>
      simp only [startsWithCL, Bool.and_eq_true, decide_eq_true_eq, ih,
        List.cons_append, List.cons.injEq]
      constructor
      · rintro ⟨rfl, t, rfl⟩
        exact ⟨t, rfl, rfl⟩
      · rintro ⟨t, rfl, rfl⟩
        exact ⟨rfl, t, rfl⟩

/-- The `containsCL pat l` holds exactly when `pat` occurs contiguously
inside `l`. -/
theorem containsCL_iff (pat : List Char) :
    ∀ l : List Char, containsCL pat l = true ↔ ∃ s t, s ++ pat ++ t = l := by
  intro l
  induction l with
  | nil =>
    simp [containsCL, startsWithCL_iff, List.append_eq_nil]
  | cons b bs ih =>
    simp only [containsCL, Bool.or_eq_true, startsWithCL_iff, ih]
    constructor
    · rintro (⟨t, ht⟩ | ⟨s, t, hs⟩)
      · exact ⟨[], t, by simpa using ht⟩
      · exact ⟨b :: s, t, by simp [hs]⟩
    · rintro ⟨s, t, h⟩
      cases s with
      | nil =>
        exact Or.inl ⟨t, by simpa using h⟩
      | cons c cs =>
        rw [List.cons_append, List.cons_append, List.cons.injEq] at h
        exact Or.inr ⟨cs, t, by simpa using h.2⟩

/-- C9: the moderation filter matches a message exactly when the
lowercased content contains some lowercased blocked term as a contiguous
substring (no word-boundary tokenization); in particular any blocked-term
set containing `"ass"` matches both `"mass production"` and `"ASSIGN"`. -/
theorem blocked_match_is_ci_substring :
    (∀ (bws : List BlockedWord) (content : String),
      containsBlockedWord bws content = true ↔
        ∃ bw ∈ bws, ∃ s t : List Char,
          s ++ (jsToLower bw.word).data ++ t = (jsToLower content).data) ∧
    (∀ bws : List BlockedWord, (∃ bw ∈ bws, bw.word = "ass") →
      containsBlockedWord bws "mass production" = true ∧
      containsBlockedWord bws "ASSIGN" = true) := by
  constructor
  · intro bws content
    simp [containsBlockedWord, List.any_eq_true, containsCL_iff]
  · rintro bws ⟨bw, hmem, hw⟩
    constructor <;>
    · simp only [containsBlockedWord, List.any_eq_true]
      exact ⟨bw, hmem, by rw [hw]; decide⟩

/-- Witness for C9: with the concrete blocked-term set `{"ass"}`, both
example messages match. -/
theorem blocked_match_is_ci_substring_witness :
    containsBlockedWord assOnly "mass production" = true ∧
    containsBlockedWord assOnly "ASSIGN" = true :=
  blocked_match_is_ci_substring.2 assOnly
    ⟨{ id := "bw1", word := "ass", createdAt := some 0, createdBy := "admin" },
     by simp [assOnly], rfl⟩

/-! ### Association-list lemmas for the map model -/

/-- The `mapHas` decides membership of the key among the map's keys. -/
theorem mapHas_iff {α : Type} (m : List (String × α)) (k : String) :
    mapHas m k = true ↔ k ∈ m.map Prod.fst := by
  simp only [mapHas, List.any_eq_true, decide_eq_true_eq, List.mem_map]

/-- The `mapHas` unfolds on a cons cell. -/
theorem mapHas_cons {α : Type} (p : String × α) (t : List (String × α))
    (k : String) : mapHas (p :: t) k = (decide (p.1 = k) || mapHas t k) := rfl

/-- The `mapGet` on a head whose key matches. -/
theorem mapGet_cons_eq {α : Type} {p : String × α} {t : List (String × α)}
    {k : String} (h : p.1 = k) : mapGet (p :: t) k = some p.2 := by
  unfold mapGet
  rw [List.find?_cons_of_pos _ (by simp [h])]
  rfl

/-- The `mapGet` skips a head whose key differs. -/
theorem mapGet_cons_ne {α : Type} {p : String × α} {t : List (String × α)}
    {k : String} (h : p.1 ≠ k) : mapGet (p :: t) k = mapGet t k := by
  unfold mapGet
  rw [List.find?_cons_of_neg _ (by simp [h])]

/-- The `mapSet` commutes with a non-matching head. -/
theorem mapSet_cons_ne {α : Type} {p : String × α} {t : List (String × α)}
    {k : String} {v : α} (h : p.1 ≠ k) :
    mapSet (p :: t) k v = p :: mapSet t k v := by
  by_cases ht : mapHas t k = true
  · have hh : mapHas (p :: t) k = true := by
      rw [mapHas_cons, ht, Bool.or_true]
    unfold mapSet
    rw [if_pos hh, if_pos ht, List.map_cons, if_neg h]
  · have htf : mapHas t k = false := by simpa using ht
    have hh : mapHas (p :: t) k = false := by
      rw [mapHas_cons, htf, Bool.or_false, decide_eq_false h]
    unfold mapSet
    rw [if_neg (by simp [hh]), if_neg (by simp [htf]), List.cons_append]

/-- Writing a key then reading it back yields the written value. -/
theorem mapGet_mapSet_self {α : Type} (m : List (String × α)) (k : String)
    (v : α) : mapGet (mapSet m k v) k = some v := by
  induction m with
  | nil =>
    unfold mapSet
    rw [if_neg (by simp [mapHas])]
    exact mapGet_cons_eq rfl
  | cons p t ih =>
    by_cases hp : p.1 = k
    · have hh : mapHas (p :: t) k = true := by
        rw [mapHas_cons, decide_eq_true hp, Bool.true_or]
      unfold mapSet
      rw [if_pos hh, List.map_cons, if_pos hp]
      exact mapGet_cons_eq rfl
    · rw [mapSet_cons_ne hp, mapGet_cons_ne hp]
      exact ih

/-- The in-place replacement pass of `mapSet` does not affect reads of a
different key. -/
theorem mapGet_replace_ne {α : Type} (m : List (String × α)) (k' k : String)
    (v : α) (h : k' ≠ k) :
    mapGet (m.map (fun p => if p.1 = k' then (k', v) else p)) k = mapGet m k := by
  induction m with
  | nil => rfl
  | cons p t ih =>
    rw [List.map_cons]
    by_cases hp : p.1 = k'
    · rw [if_pos hp, mapGet_cons_ne h, mapGet_cons_ne (by rw [hp]; exact h)]
      exact ih
    · rw [if_neg hp]
      by_cases hk : p.1 = k
      · rw [mapGet_cons_eq hk, mapGet_cons_eq hk]
      · rw [mapGet_cons_ne hk, mapGet_cons_ne hk]
        exact ih

/-- Appending an entry for a different key does not affect reads. -/
theorem mapGet_append_single_ne {α : Type} (m : List (String × α))
    (k' k : String) (v : α) (h : k' ≠ k) :
    mapGet (m ++ [(k', v)]) k = mapGet m k := by
  induction m with
  | nil =>
    rw [List.nil_append, mapGet_cons_ne h]
  | cons p t ih =>
    rw [List.cons_append]
    by_cases hk : p.1 = k
    · rw [mapGet_cons_eq hk, mapGet_cons_eq hk]
    · rw [mapGet_cons_ne hk, mapGet_cons_ne hk]
      exact ih

/-- Writing one key does not affect reads of another. -/
theorem mapGet_mapSet_ne {α : Type} (m : List (String × α)) (k' k : String)
    (v : α) (h : k' ≠ k) : mapGet (mapSet m k' v) k = mapGet m k := by
  unfold mapSet
  by_cases hh : mapHas m k' = true
  · rw [if_pos hh]
    exact mapGet_replace_ne m k' k v h
  · rw [if_neg hh]
    exact mapGet_append_single_ne m k' k v h

/-- Replacing an absent key is the identity. -/
theorem map_replace_of_not_has {α : Type} (m : List (String × α)) (k : String)
    (v : α) (h : mapHas m k = false) :
    m.map (fun p => if p.1 = k then (k, v) else p) = m := by
  induction m with
  | nil => rfl
  | cons p t ih =>
    simp only [mapHas, List.any_cons, Bool.or_eq_false_iff,
      decide_eq_false_iff_not] at h
    rw [List.map_cons, if_neg h.1, ih (by simpa [mapHas] using h.2)]

/-- Re-writing a key with the value it already holds is the identity on a
duplicate-free map. -/
theorem mapSet_eq_self {α : Type} (m : List (String × α)) (k : String) (v : α)
    (hnd : (m.map Prod.fst).Nodup) (hget : mapGet m k = some v) :
    mapSet m k v = m := by
  induction m with
  | nil => simp [mapGet, List.find?] at hget
  | cons p t ih =>
    by_cases hp : p.1 = k
    · have hv : v = p.2 := by
        rw [mapGet_cons_eq hp] at hget
        exact (Option.some.inj hget).symm
      have hh : mapHas (p :: t) k = true := by
        rw [mapHas_cons, decide_eq_true hp, Bool.true_or]
      have htk : mapHas t k = false := by
        rw [List.map_cons, List.nodup_cons] at hnd
        by_cases htr : mapHas t k = true
        · exact absurd (hp ▸ (mapHas_iff t k).mp htr) hnd.1
        · simpa using htr
      unfold mapSet
      rw [if_pos hh, List.map_cons, if_pos hp,
        map_replace_of_not_has t k v htk]
      have hpk : (k, v) = p := by
        cases p
        simp only [Prod.mk.injEq]
        exact ⟨hp.symm, hv⟩
      rw [hpk]
    · rw [mapSet_cons_ne hp]
      rw [mapGet_cons_ne hp] at hget
      rw [List.map_cons, List.nodup_cons] at hnd
      rw [ih hnd.2 hget]

/-- The `mapSet` preserves key-uniqueness. -/
theorem mapSet_keys_nodup {α : Type} (m : List (String × α)) (k : String)
    (v : α) (hnd : (m.map Prod.fst).Nodup) :
    ((mapSet m k v).map Prod.fst).Nodup := by
  unfold mapSet
  by_cases hh : mapHas m k = true
  · rw [if_pos hh, List.map_map]
    have hcongr : (m.map (Prod.fst ∘ fun p => if p.1 = k then (k, v) else p))
        = m.map Prod.fst := by
      apply List.map_congr_left
      intro p _
      by_cases hp : p.1 = k
      · simp [hp]
      · simp [hp]
    rw [hcongr]
    exact hnd
  · rw [if_neg hh, List.map_append]
    have hk : k ∉ m.map Prod.fst := fun hmem =>
      hh ((mapHas_iff m k).mpr hmem)
    simp [List.nodup_append, hnd, hk]

/-- Folding writes whose keys all already hold their values is the
identity on a duplicate-free map. -/
theorem applySets_eq_self {α : Type} (kvs : List (String × α))
    (m : List (String × α)) (hnd : (m.map Prod.fst).Nodup)
    (h : ∀ kv ∈ kvs, mapGet m kv.1 = some kv.2) : applySets kvs m = m := by
  induction kvs with
  | nil => rfl
  | cons kv rest ih =>
    have h0 := h kv (List.mem_cons_self kv rest)
    have hset : mapSet m kv.1 kv.2 = m := mapSet_eq_self m kv.1 kv.2 hnd h0
    show applySets rest (mapSet m kv.1 kv.2) = m
    rw [hset]
    exact ih (fun x hx => h x (List.mem_cons_of_mem kv hx))

/-- Reading a key not written by the fold sees the base map. -/
theorem mapGet_applySets_not_mem {α : Type} (kvs : List (String × α))
    (m : List (String × α)) (k : String) (h : k ∉ kvs.map Prod.fst) :
    mapGet (applySets kvs m) k = mapGet m k := by
  induction kvs generalizing m with
  | nil => rfl
  | cons kv rest ih =>
    rw [List.map_cons] at h
    show mapGet (applySets rest (mapSet m kv.1 kv.2)) k = mapGet m k
    rw [ih (mapSet m kv.1 kv.2) (fun hx => h (List.mem_cons_of_mem _ hx))]
    exact mapGet_mapSet_ne m kv.1 k kv.2
      (fun he => h (he ▸ List.mem_cons_self _ _))

/-- After folding a duplicate-free write list, every written key reads
back its written value. -/
theorem mapGet_applySets_mem {α : Type} (kvs : List (String × α))
    (m : List (String × α)) (hk : (kvs.map Prod.fst).Nodup) :
    ∀ kv ∈ kvs, mapGet (applySets kvs m) kv.1 = some kv.2 := by
  induction kvs generalizing m with
  | nil => intro kv h; exact absurd h (List.not_mem_nil kv)
  | cons kv0 rest ih =>
    rw [List.map_cons, List.nodup_cons] at hk
    intro kv hkv
    rcases List.mem_cons.mp hkv with rfl | hmem
    · show mapGet (applySets rest (mapSet m kv.1 kv.2)) kv.1 = some kv.2
      rw [mapGet_applySets_not_mem rest (mapSet m kv.1 kv.2) kv.1 hk.1]
      exact mapGet_mapSet_self m kv.1 kv.2
    · exact ih (mapSet m kv0.1 kv0.2) hk.2 kv hmem

/-- The `applySets` preserves key-uniqueness of the base map. -/
theorem applySets_keys_nodup {α : Type} (kvs : List (String × α))
    (m : List (String × α)) (hnd : (m.map Prod.fst).Nodup) :
    ((applySets kvs m).map Prod.fst).Nodup := by
  induction kvs generalizing m with
  | nil => exact hnd
  | cons kv rest ih =>
    exact ih (mapSet m kv.1 kv.2) (mapSet_keys_nodup m kv.1 kv.2 hnd)

/-- A duplicate-free write list folded twice equals it folded once. -/
theorem applySets_idem {α : Type} (kvs : List (String × α))
    (m : List (String × α)) (hk : (kvs.map Prod.fst).Nodup)
    (hnd : (m.map Prod.fst).Nodup) :
    applySets kvs (applySets kvs m) = applySets kvs m :=
  applySets_eq_self kvs (applySets kvs m) (applySets_keys_nodup kvs m hnd)
    (mapGet_applySets_mem kvs m hk)

/-! ### Snapshot-sync lemmas -/

/-- The `updateMemberCount` in terms of `recomputedStats`. -/
theorem updateMemberCount_eq (now : Int) (st : MemStorage) :
    updateMemberCount now st
      = { st with stats := recomputedStats now st.members st.stats } := rfl

/-- Recomputing over one member map absorbs a previous recompute. -/
theorem recomputedStats_absorb (now : Int)
    (M M' : List (String × DiscordMember)) (s : ServerStats) :
    recomputedStats now M (recomputedStats now M' s)
      = recomputedStats now M s := rfl

/-- A sync whose upstream holds only bots leaves the store untouched. -/
theorem syncMembers_nil_filter (now : Int) (e : String) :
    ∀ (up : List UpstreamMember), up.filter (fun m => !m.isBot) = [] →
      ∀ st : MemStorage, syncMembers now e up st = st := by
  intro up
  induction up with
  | nil => intro _ st; rfl
  | cons m rest ih =>
    intro h st
    by_cases hb : m.isBot = true
    · have h' : rest.filter (fun x => !x.isBot) = [] := by
        simpa [List.filter_cons, hb] using h
      have hred : syncMembers now e (m :: rest) st = syncMembers now e rest st := by
        simp [syncMembers, hb]
      rw [hred]
      exact ih h' st
    · exfalso
      simp [List.filter_cons, hb] at h

/-- The member map after a sync is the fold of the sync's writes. -/
theorem syncMembers_members (now : Int) (e : String) :
    ∀ (up : List UpstreamMember) (st : MemStorage),
      (syncMembers now e up st).members
        = applySets (syncKV now e up) st.members := by
  intro up
  induction up with
  | nil => intro st; rfl
  | cons m rest ih =>
    intro st
    by_cases hb : m.isBot = true
    · have hred : syncMembers now e (m :: rest) st = syncMembers now e rest st := by
        simp [syncMembers, hb]
      have hkv : syncKV now e (m :: rest) = syncKV now e rest := by
        simp [syncKV, List.filter_cons, hb]
      rw [hred, hkv]
      exact ih st
    · have hred : syncMembers now e (m :: rest) st
          = syncMembers now e rest (createMember now (syncInsert e m) st).2 := by
        simp [syncMembers, hb]
      have hkv : syncKV now e (m :: rest)
          = (m.id, mkMemberRecord now (syncInsert e m)) :: syncKV now e rest := by
        simp [syncKV, List.filter_cons, hb]
      rw [hred, hkv, ih]
      rfl

/-- A sync never touches the kick-log table. -/
theorem syncMembers_kickLogs (now : Int) (e : String) :
    ∀ (up : List UpstreamMember) (st : MemStorage),
      (syncMembers now e up st).kickLogs = st.kickLogs := by
  intro up
  induction up with
  | nil => intro st; rfl
  | cons m rest ih =>
    intro st
    by_cases hb : m.isBot = true
    · have hred : syncMembers now e (m :: rest) st = syncMembers now e rest st := by
        simp [syncMembers, hb]
      rw [hred]; exact ih st
    · have hred : syncMembers now e (m :: rest) st
          = syncMembers now e rest (createMember now (syncInsert e m) st).2 := by
        simp [syncMembers, hb]
      rw [hred, ih]
      rfl

/-- A sync never touches the blocked-word table. -/
theorem syncMembers_blockedWords (now : Int) (e : String) :
    ∀ (up : List UpstreamMember) (st : MemStorage),
      (syncMembers now e up st).blockedWords = st.blockedWords := by
  intro up
  induction up with
  | nil => intro st; rfl
  | cons m rest ih =>
    intro st
    by_cases hb : m.isBot = true
    · have hred : syncMembers now e (m :: rest) st = syncMembers now e rest st := by
        simp [syncMembers, hb]
      rw [hred]; exact ih st
    · have hred : syncMembers now e (m :: rest) st
          = syncMembers now e rest (createMember now (syncInsert e m) st).2 := by
        simp [syncMembers, hb]
      rw [hred, ih]
      rfl

/-- After a sync that upserted at least one member, the stats are exactly
the recompute over the final member map on top of the pre-sync stats. -/
theorem syncMembers_stats (now : Int) (e : String) :
    ∀ (up : List UpstreamMember) (st : MemStorage),
      up.filter (fun m => !m.isBot) ≠ [] →
      (syncMembers now e up st).stats
        = recomputedStats now (syncMembers now e up st).members st.stats := by
  intro up
  induction up with
  | nil =>
    intro st h
    exact absurd rfl h
  | cons m rest ih =>
    intro st h
    by_cases hb : m.isBot = true
    · have hred : syncMembers now e (m :: rest) st = syncMembers now e rest st := by
        simp [syncMembers, hb]
      have h' : rest.filter (fun x => !x.isBot) ≠ [] := by
        simpa [List.filter_cons, hb] using h
      rw [hred]
      exact ih st h'
    · have hred : syncMembers now e (m :: rest) st
          = syncMembers now e rest (createMember now (syncInsert e m) st).2 := by
        simp [syncMembers, hb]
      rw [hred]
      by_cases hfil : rest.filter (fun x => !x.isBot) = []
      · rw [syncMembers_nil_filter now e rest hfil]
        rfl
      · have hrec := ih ((createMember now (syncInsert e m) st).2) hfil
        rw [hrec]
        exact rfl

/-- Equality of stores by components. -/
theorem MemStorage.eqOf (a b : MemStorage) (h1 : a.members = b.members)
    (h2 : a.kickLogs = b.kickLogs) (h3 : a.blockedWords = b.blockedWords)
    (h4 : a.stats = b.stats) : a = b := by
  cases a
  cases b
  simp_all

/-- A sync at time 0 followed by a sync of the same upstream data at time
1 does NOT reproduce the single-sync store: the second run refreshes the
member's `joinedAt` and `lastSeen` to its own clock. -/
theorem sync_twice_not_identical_counterexample :
    syncMembers 1 "e" sampleUpstream
        (syncMembers 0 "e" sampleUpstream (MemStorage.init 0))
      ≠ syncMembers 0 "e" sampleUpstream (MemStorage.init 0) := by
  decide

/-- C5 (amended): with unchanged upstream data (member ids distinct, as a
vendor collection guarantees) and a duplicate-free store, running the
snapshot sync twice at the same clock value yields a store byte-for-byte
identical to running it once.  A second run at a later clock is not
byte-identical: `createMember` stamps timestamp fields (`joinedAt`,
`lastSeen`, and `joinedServerAt` when the upstream join date is absent)
with its own clock on every upsert. -/
theorem sync_idempotent_same_clock (now : Int) (e : String)
    (up : List UpstreamMember) (st : MemStorage)
    (hup : (up.map (fun m => m.id)).Nodup)
    (hst : (st.members.map Prod.fst).Nodup) :
    syncMembers now e up (syncMembers now e up st)
      = syncMembers now e up st := by
  by_cases hfil : up.filter (fun m => !m.isBot) = []
  · rw [syncMembers_nil_filter now e up hfil,
      syncMembers_nil_filter now e up hfil]
  · have hkeys : ((syncKV now e up).map Prod.fst).Nodup := by
      have hmk : (syncKV now e up).map Prod.fst
          = (up.filter (fun m => !m.isBot)).map (fun m => m.id) := by
        simp [syncKV, List.map_map]
      rw [hmk]
      exact List.Nodup.sublist
        ((List.filter_sublist up).map (fun m => m.id)) hup
    have hm2 : (syncMembers now e up (syncMembers now e up st)).members
        = (syncMembers now e up st).members := by
      rw [syncMembers_members now e up (syncMembers now e up st),
        syncMembers_members now e up st]
      exact applySets_idem (syncKV now e up) st.members hkeys hst
    have hs1 := syncMembers_stats now e up st hfil
    have hs2 := syncMembers_stats now e up (syncMembers now e up st) hfil
    refine MemStorage.eqOf _ _ hm2 ?_ ?_ ?_
    · rw [syncMembers_kickLogs now e up (syncMembers now e up st),
        syncMembers_kickLogs now e up st]
    · rw [syncMembers_blockedWords now e up (syncMembers now e up st),
        syncMembers_blockedWords now e up st]
    · rw [hs2, hm2, hs1]
      exact recomputedStats_absorb now _ _ _

/-- Witness for C5 (amended): the concrete one-member upstream synced
twice at clock 0 reproduces the single-sync store exactly. -/
theorem sync_idempotent_same_clock_witness :
    syncMembers 0 "e" sampleUpstream
        (syncMembers 0 "e" sampleUpstream (MemStorage.init 0))
      = syncMembers 0 "e" sampleUpstream (MemStorage.init 0) :=
  sync_idempotent_same_clock 0 "e" sampleUpstream (MemStorage.init 0)
    (by decide) (by decide)

end MiniSoccer
